import Mathlib

/-!
Verification development for the "date night" invite application
(an Express + SQLite web app: `src/db.ts`, `src/themes.ts`, `src/server.ts`,
`src/email.ts`).

The embedding below translates the data model and the request handlers
relevant to the invite lifecycle into Lean:

* rows of the three SQLite tables (`date_nights`, `invites`, `selections`)
  become structures; the whole store becomes a `Db` value;
* each prepared SQL statement becomes an explicit list operation;
* JavaScript string builtins used by the handlers (`trim`, `split("\n")`,
  `replace(/\/$/, "")`) are modelled structurally over `List Char` so that
  they evaluate inside the kernel;
* `JSON.parse` is modelled by its outcome, a value of `Option Json`
  (`Option.none` standing for a thrown parse error), and `JSON.stringify`
  of a menu object by an explicit constructor into the same `Json` AST;
* nondeterministic inputs of a request (generated ids, the current
  timestamp, success of outbound email dispatch, a storage fault between
  two statements) are explicit parameters of the handler functions.
-/

/-- AST of JSON values, the codomain of `JSON.parse`.  Numbers are modelled
as integers; no claim depends on numeric precision. -/
inductive Json where
  | null
  | bool (b : Bool)
  | num (n : Int)
  | str (s : String)
  | arr (elems : List Json)
  | obj (fields : List (String × Json))
deriving Repr

/-- Models the JavaScript strict equality `v === s` between an arbitrary
value `v` and a string `s`: true exactly when `v` is that very string.
`Array.prototype.includes(s)` tests its elements with this predicate. -/
def Json.isStrEq (s : String) : Json → Bool
  | Json.str t => s == t
  | _ => false

/-- Models `String.prototype.trim` (over the ASCII whitespace characters
actually reachable from form input: space, tab, CR, LF). -/
def jsTrim (s : String) : String :=
  String.mk (((s.data.dropWhile Char.isWhitespace).reverse.dropWhile Char.isWhitespace).reverse)

/-- Accumulator loop behind `jsSplitNl`. -/
def splitNlChars : List Char → List Char → List String
  | [], acc => [String.mk acc.reverse]
  | c :: rest, acc =>
    if c = '\n' then String.mk acc.reverse :: splitNlChars rest []
    else splitNlChars rest (c :: acc)

/-- Models `String.prototype.split("\n")`. -/
def jsSplitNl (s : String) : List String := splitNlChars s.data []

/-- Models `.replace(/\/$/, "")`: drops a single trailing slash. -/
def stripTrailingSlash (s : String) : String :=
  match s.data.reverse with
  | c :: rest => if c = '/' then String.mk rest.reverse else s
  | [] => s

/-- `parseLines` from `src/server.ts`: split a textarea on newlines, trim
every line, keep the truthy (non-empty) ones. -/
def parseLines (input : String) : List String :=
  ((jsSplitNl input).map jsTrim).filter (fun s => !(s == ""))

/-- Return type of `safeParseMenuJson`: the three option groups of a menu.
Elements are arbitrary JSON values, as in the source, where a group that
decodes as an array is taken as-is without checking its element types. -/
structure ParsedMenu where
  dinner : List Json
  activity : List Json
  mood : List Json
deriving Repr

/-- Models the optional member access `m?.[key]` on a parsed JSON value:
a field of an object, `undefined` (here `Option.none`) otherwise. -/
def jsonGet (j : Json) (key : String) : Option Json :=
  match j with
  | Json.obj fields => (fields.find? (fun f => f.1 == key)).map (fun f => f.2)
  | _ => Option.none

/-- The value of `m?.[key]` where `m` is the outcome of `JSON.parse`
(`Option.none` when the parse threw, so the `catch` branch runs). -/
def menuField (parsed : Option Json) (key : String) : Option Json :=
  match parsed with
  | some m => jsonGet m key
  | Option.none => Option.none

/-- Models `Array.isArray(v)` applied to a possibly-undefined value. -/
def isArrayField : Option Json → Bool
  | some (Json.arr _) => true
  | _ => false

/-- `safeParseMenuJson` from `src/server.ts`.  The argument is the outcome
of `JSON.parse(menuJson)`: `some m` when parsing succeeded with value `m`,
`Option.none` when it threw (the `catch` branch, which returns three empty
groups).  Each group keeps the parsed array when `Array.isArray` holds for
the field and falls back to `[]` otherwise.  Totality of this Lean
function is the model of "never throws". -/
def safeParseMenuJson (parsed : Option Json) : ParsedMenu :=
  match parsed with
  | Option.none => ⟨[], [], []⟩
  | some m =>
    ⟨(match jsonGet m "dinner" with | some (Json.arr xs) => xs | _ => []),
     (match jsonGet m "activity" with | some (Json.arr xs) => xs | _ => []),
     (match jsonGet m "mood" with | some (Json.arr xs) => xs | _ => [])⟩

/-- The `options` record of a theme (`src/themes.ts`). -/
structure ThemeOptions where
  dinner : List String
  activity : List String
  mood : List String
deriving Repr, DecidableEq

/-- A theme from the static catalog (`src/themes.ts`). -/
structure Theme where
  id : String
  name : String
  blurb : String
  options : ThemeOptions
deriving Repr, DecidableEq

/-- The single theme of the static catalog in `src/themes.ts`. -/
def cottagecoreTheme : Theme :=
  ⟨"cottagecore-classic",
   "Cottagecore Classic",
   "Warm bread, soft blankets, candlelight, and gentle joy.",
   ⟨["Soup + fresh bread", "Pasta night", "Charcuterie + fruit", "Takeout plated nicely"],
    ["Bake something sweet", "Cozy movie", "Board games", "Long chat + tea"],
    ["Romantic", "Soft & slow", "Playful", "Deep & cozy"]⟩⟩

/-- The static theme catalog `THEMES` from `src/themes.ts`. -/
def THEMES : List Theme := [cottagecoreTheme]

/-- `getTheme` from `src/themes.ts`. -/
def getTheme (id : String) : Option Theme := THEMES.find? (fun t => t.id == id)

/-- Subject/html/text triple produced by the render functions of
`src/email.ts`. -/
structure EmailPayload where
  subject : String
  html : String
  text : String
deriving Repr, DecidableEq

/-- `esc` from `src/email.ts`, per character. -/
def escChar (c : Char) : String :=
  if c = '&' then "&amp;"
  else if c = '<' then "&lt;"
  else if c = '>' then "&gt;"
  else if c = '"' then "&quot;"
  else if c = Char.ofNat 39 then "&#39;"
  else String.singleton c

/-- `esc` from `src/email.ts`: HTML-escapes the characters matched by the
regular expression of the source. -/
def esc (s : String) : String := String.join (s.data.map escChar)

/-- `renderInviteEmail` from `src/email.ts`. -/
def renderInviteEmail (title themeName themeBlurb inviteUrl : String) : EmailPayload :=
  { subject := "A cozy invite: " ++ title ++ " 🌿"
    html :=
      "\n      <div style=\"font-family:system-ui;background:#fbf6ee;padding:24px;\">\n        <div style=\"max-width:640px;margin:0 auto;background:#fffaf2;border:1px solid #e7dccb;border-radius:18px;padding:18px;\">\n          <h2 style=\"margin:0 0 10px;\">🌼 You’ve got a cozy invite</h2>\n          <p style=\"margin:0 0 12px;color:#6b645b;line-height:1.6\">\n            <strong>"
      ++ esc title
      ++ "</strong><br/>\n            Theme: <strong>"
      ++ esc themeName
      ++ "</strong><br/>\n            <em>"
      ++ esc themeBlurb
      ++ "</em>\n          </p>\n          <p style=\"margin:0 0 14px;line-height:1.6\">Tap below to choose a few sweet options.</p>\n          <a href=\""
      ++ inviteUrl
      ++ "\" style=\"display:inline-block;background:#7a8f62;color:#fff;text-decoration:none;padding:12px 16px;border-radius:14px;font-weight:700;\">\n            Choose my cozy picks 🌿\n          </a>\n          <p style=\"margin:12px 0 0;color:#6b645b;font-size:12px;\">Link: "
      ++ esc inviteUrl
      ++ "</p>\n        </div>\n      </div>\n    "
    text := "Cozy invite: " ++ title ++ "\nTheme: " ++ themeName ++ "\nPick here: " ++ inviteUrl }

/-- `renderPlannerEmail` from `src/email.ts`.  `notes` is the nullable
notes value; the truthiness test `args.notes?.trim()` holds exactly when
a note is present and non-blank. -/
def renderPlannerEmail (title themeName inviteUrl dinner activity mood : String)
    (notes : Option String) : EmailPayload :=
  let notesTrimmed := match notes with
    | some s => jsTrim s
    | Option.none => ""
  let notesText := if notesTrimmed == "" then "" else "\nNote: " ++ notesTrimmed
  { subject := "Selections for \"" ++ title ++ "\" 👀"
    html :=
      "\n      <div style=\"font-family:system-ui;background:#fbf6ee;padding:24px;\">\n        <div style=\"max-width:640px;margin:0 auto;background:#fffaf2;border:1px solid #e7dccb;border-radius:18px;padding:18px;\">\n          <h2 style=\"margin:0 0 10px;\">👀 Picks are in</h2>\n          <p style=\"margin:0 0 12px;color:#6b645b;line-height:1.6\">\n            <strong>"
      ++ esc title
      ++ "</strong> • Theme: <strong>"
      ++ esc themeName
      ++ "</strong>\n          </p>\n          <ul style=\"margin:0;padding-left:18px;line-height:1.7\">\n            <li><strong>Dinner:</strong> "
      ++ esc dinner
      ++ "</li>\n            <li><strong>Activity:</strong> "
      ++ esc activity
      ++ "</li>\n            <li><strong>Mood:</strong> "
      ++ esc mood
      ++ "</li>\n          </ul>\n          "
      ++ (if notesTrimmed == "" then ""
          else "<p style=\"margin:12px 0 0;\"><strong>Note:</strong> " ++ esc notesTrimmed ++ "</p>")
      ++ "\n          <p style=\"margin:12px 0 0;color:#6b645b;font-size:12px;\">Invite link: "
      ++ esc inviteUrl
      ++ "</p>\n        </div>\n      </div>\n    "
    text :=
      "Selections for \"" ++ title ++ "\" (Theme: " ++ themeName ++ ")\n"
      ++ "- Dinner: " ++ dinner ++ "\n- Activity: " ++ activity ++ "\n- Mood: " ++ mood ++ "\n"
      ++ notesText ++ "\nInvite: " ++ inviteUrl }

/-- `renderPartnerConfirmationEmail` from `src/email.ts`. -/
def renderPartnerConfirmationEmail (title themeName : String) : EmailPayload :=
  { subject := "You’re all set for \"" ++ title ++ "\" 🕯️"
    html :=
      "\n      <div style=\"font-family:system-ui;background:#fbf6ee;padding:24px;\">\n        <div style=\"max-width:640px;margin:0 auto;background:#fffaf2;border:1px solid #e7dccb;border-radius:18px;padding:18px;\">\n          <h2 style=\"margin:0 0 10px;\">🕯️ All set, love</h2>\n          <p style=\"margin:0;color:#6b645b;line-height:1.7\">\n            Your choices are in for <strong>"
      ++ esc title
      ++ "</strong>.<br/>\n            Theme: <strong>"
      ++ esc themeName
      ++ "</strong>.\n          </p>\n          <p style=\"margin:12px 0 0;line-height:1.7\">\n            You don’t need to plan a thing — just show up and be cozy.<br/>\n            <strong>You’ll be taken care of.</strong> 💛\n          </p>\n        </div>\n      </div>\n    "
    text := "You're all set for \"" ++ title ++ "\" (Theme: " ++ themeName ++ "). You’ll be taken care of 💛" }

/-- A row of the `date_nights` table (schema in `src/db.ts`).  The
`menu_json` column holds JSON text; the model stores the parsed value
(every write of the column in the source stores `JSON.stringify` of a
JSON value, and stringify-then-parse round-trips). -/
structure DateNight where
  id : String
  title : String
  theme_id : String
  date_iso : Option String
  menu_json : Json
  blurb : Option String
  created_at : String
deriving Repr

/-- A row of the `invites` table (schema in `src/db.ts`). -/
structure Invite where
  id : String
  date_night_id : String
  token : String
  recipient_email : Option String
  used_at : Option String
  created_at : String
deriving Repr, DecidableEq

/-- A row of the `selections` table (schema in `src/db.ts`). -/
structure Selection where
  id : String
  invite_id : String
  dinner_choice : String
  activity_choice : String
  mood_choice : String
  notes : Option String
  created_at : String
deriving Repr, DecidableEq

/-- The persistent store: the three tables of `src/db.ts`. -/
structure Db where
  date_nights : List DateNight
  invites : List Invite
  selections : List Selection
deriving Repr

/-- Environment of the process: the raw values of `PLANNER_EMAIL` and
`BASE_URL` (absent variables modelled as `""`, the result of
`process.env.X || ""`). -/
structure Env where
  planner_email_raw : String
  base_url_raw : String
deriving Repr, DecidableEq

/-- `plannerEmail()` from `src/server.ts`. -/
def plannerEmail (env : Env) : String := jsTrim env.planner_email_raw

/-- `baseUrl()` from `src/server.ts`. -/
def baseUrl (env : Env) : String :=
  stripTrailingSlash (if env.base_url_raw == "" then "http://localhost:3000" else env.base_url_raw)

/-- Models the idiom `String(x || "").trim() || null`: a trimmed string,
or SQL NULL when the trimmed string is empty. -/
def orNullTrim (s : String) : Option String :=
  if jsTrim s == "" then Option.none else some (jsTrim s)

/-- The `type` field of a `Flash` (`src/server.ts`). -/
inductive FlashType where
  | info
  | error
deriving Repr, DecidableEq

/-- The transient status message stored in the session (`src/server.ts`). -/
structure Flash where
  type : FlashType
  message : String
deriving Repr, DecidableEq

/-- Flash set by `POST /invite/:token` when no invite row matches the
token. -/
def inviteNotFoundFlash : Flash := ⟨FlashType.error, "That invite doesn’t exist."⟩

/-- Flash set by `POST /invite/:token` when the invite's `used_at` is
already set. -/
def alreadyUsedFlash : Flash := ⟨FlashType.error, "This invite was already used."⟩

/-- Flash set by `POST /invite/:token` when the submitted triple fails
validation against the menu. -/
def invalidSelectionFlash : Flash :=
  ⟨FlashType.error, "One or more choices were invalid. Please try again."⟩

/-- The validation expression of `POST /invite/:token` (the `valid`
constant): membership of each submitted string in the corresponding menu
group, via `Array.prototype.includes` (strict equality). -/
def selectionValid (menu : ParsedMenu) (dinner activity mood : String) : Bool :=
  menu.dinner.any (Json.isStrEq dinner) &&
  menu.activity.any (Json.isStrEq activity) &&
  menu.mood.any (Json.isStrEq mood)

/-- The form fields of `POST /invite/:token`; a missing field is `""`
(the result of `String(req.body.x || "")`). -/
structure SubmitBody where
  dinnerChoice : String
  activityChoice : String
  moodChoice : String
  notes : String
deriving Repr, DecidableEq

/-- Fault injection point for the record operation.  The source runs
`INSERT INTO selections ...` and `UPDATE invites SET used_at ...` as two
separate statements with no enclosing transaction (better-sqlite3
autocommits each `.run()`), so a crash or storage fault between the two
statements leaves the insert committed and the update never executed.
`crashAfterInsert` models a fault in exactly that window; a fault before
the insert or after the update leaves the store as if the run never
started or fully finished and needs no extra constructor. -/
inductive Fault where
  | noFault
  | crashAfterInsert
deriving Repr, DecidableEq

/-- The externally observable response of `POST /invite/:token`. -/
inductive PostInviteRes where
  | redirect (flash : Option Flash)
  | thanks
  | raised
  | crashed
deriving Repr, DecidableEq

/-- One call of `sendEmail`: `toAddr` models the `to` field of its
options, `payload` the rendered subject/html/text. -/
structure EmailAttempt where
  toAddr : String
  payload : EmailPayload
deriving Repr, DecidableEq

/-- Result of one run of `POST /invite/:token`: the store after the run,
the response, the attempted outbound emails, and the console log lines
(the source strings are longer; the model keeps stable abbreviations). -/
structure PostInviteResult where
  db : Db
  res : PostInviteRes
  emails : List EmailAttempt
  log : List String
deriving Repr

/-- `SELECT * FROM invites WHERE token = ?` (the token column is
declared UNIQUE, so the single row returned is the unique match). -/
def findInviteByToken (db : Db) (token : String) : Option Invite :=
  db.invites.find? (fun i => i.token == token)

/-- `SELECT * FROM date_nights WHERE id = ?`. -/
def findEventById (db : Db) (id : String) : Option DateNight :=
  db.date_nights.find? (fun d => d.id == id)

/-- Whether a `selections` row for this invite exists: the condition under
which the schema constraint `invite_id TEXT NOT NULL UNIQUE` makes the
INSERT of `POST /invite/:token` throw. -/
def hasSelectionFor (db : Db) (inviteId : String) : Bool :=
  db.selections.any (fun s => s.invite_id == inviteId)

/-- `UPDATE invites SET used_at = ? WHERE id = ?`. -/
def markInviteUsed (invites : List Invite) (inviteId now : String) : List Invite :=
  invites.map (fun i => if i.id == inviteId then { i with used_at := some now } else i)

/-- The `POST /invite/:token` handler of `src/server.ts` (the record
operation).  Explicit parameters stand for the handler's nondeterministic
inputs: `selId` for `nanoid(12)`, `now` for `new Date().toISOString()`,
`fault` for a storage fault between the two write statements, and
`plannerSendOk` / `partnerSendOk` for whether the corresponding
`sendEmail` call resolves or rejects (a rejection is caught and only
logged).  The INSERT throws when a selection row for the invite already
exists (UNIQUE constraint); that exception is not caught by the handler,
modelled by the `raised` response with the store unchanged. -/
def postInviteToken (env : Env) (db : Db) (token : String) (body : SubmitBody)
    (selId now : String) (fault : Fault) (plannerSendOk partnerSendOk : Bool) :
    PostInviteResult :=
  match findInviteByToken db token with
  | Option.none => ⟨db, PostInviteRes.redirect (some inviteNotFoundFlash), [], []⟩
  | some inv =>
    if inv.used_at.isSome then
      ⟨db, PostInviteRes.redirect (some alreadyUsedFlash), [], []⟩
    else
      match findEventById db inv.date_night_id with
      | Option.none => ⟨db, PostInviteRes.redirect Option.none, [], []⟩
      | some dn =>
        match getTheme dn.theme_id with
        | Option.none => ⟨db, PostInviteRes.redirect Option.none, [], []⟩
        | some theme =>
          let menu := safeParseMenuJson (some dn.menu_json)
          let dinner := jsTrim body.dinnerChoice
          let activity := jsTrim body.activityChoice
          let mood := jsTrim body.moodChoice
          let notes := orNullTrim body.notes
          if !(selectionValid menu dinner activity mood) then
            ⟨db, PostInviteRes.redirect (some invalidSelectionFlash), [], []⟩
          else if hasSelectionFor db inv.id then
            ⟨db, PostInviteRes.raised, [], []⟩
          else
            let db1 : Db :=
              { db with selections := db.selections ++ [⟨selId, inv.id, dinner, activity, mood, notes, now⟩] }
            match fault with
            | Fault.crashAfterInsert => ⟨db1, PostInviteRes.crashed, [], []⟩
            | Fault.noFault =>
              let db2 : Db := { db1 with invites := markInviteUsed db1.invites inv.id now }
              let pe := plannerEmail env
              let inviteUrl := baseUrl env ++ "/invite/" ++ token
              let plannerEmails : List EmailAttempt :=
                if pe == "" then []
                else [⟨pe, renderPlannerEmail dn.title theme.name inviteUrl dinner activity mood notes⟩]
              let plannerLog : List String :=
                if pe == "" then
                  ["[planner-email:missing] Set PLANNER_EMAIL to receive selections."]
                else if plannerSendOk then [] else ["Planner email failed"]
              let partnerEmails : List EmailAttempt :=
                match inv.recipient_email with
                | some re => [⟨re, renderPartnerConfirmationEmail dn.title theme.name⟩]
                | Option.none => []
              let partnerLog : List String :=
                match inv.recipient_email with
                | some _ => if partnerSendOk then [] else ["Partner confirmation email failed"]
                | Option.none => []
              ⟨db2, PostInviteRes.thanks, plannerEmails ++ partnerEmails, plannerLog ++ partnerLog⟩

/-- `JSON.stringify({ dinner, activity, mood })` as written by
`POST /admin/date-night/:id/menu` (modelled by the JSON value the stored
text parses back to). -/
def stringifyMenu (dinner activity mood : List String) : Json :=
  Json.obj [("dinner", Json.arr (dinner.map Json.str)),
            ("activity", Json.arr (activity.map Json.str)),
            ("mood", Json.arr (mood.map Json.str))]

/-- Response of `POST /admin/date-night/:id/menu`. -/
inductive AdminMenuRes where
  | redirectDashboard
  | redirectEditPage (flash : Flash)
  | redirectDateNightPage (flash : Flash)
deriving Repr, DecidableEq

/-- The `POST /admin/date-night/:id/menu` handler of `src/server.ts`
(Edit Menu): parses the three textareas with `parseLines`, rejects the
update when any group ends up empty, otherwise replaces `menu_json` and
`blurb` of the event row. -/
def postAdminMenu (db : Db) (id : String)
    (dinnerInput activityInput moodInput blurbInput : String) : Db × AdminMenuRes :=
  match findEventById db id with
  | Option.none => (db, AdminMenuRes.redirectDashboard)
  | some _ =>
    let dinner := parseLines dinnerInput
    let activity := parseLines activityInput
    let mood := parseLines moodInput
    let blurb := orNullTrim blurbInput
    if dinner.length == 0 || activity.length == 0 || mood.length == 0 then
      (db, AdminMenuRes.redirectEditPage
        ⟨FlashType.error, "Please provide at least 1 option in each section."⟩)
    else
      ({ db with date_nights := db.date_nights.map (fun d =>
          if d.id == id then { d with menu_json := stringifyMenu dinner activity mood, blurb := blurb }
          else d) },
       AdminMenuRes.redirectDateNightPage ⟨FlashType.info, "Itinerary saved 🌼"⟩)

/-- Response of `POST /admin/invite/:inviteId/resend`. -/
inductive ResendRes where
  | toDashboard (flash : Option Flash)
  | toDateNightPage (dateNightId : String) (flash : Option Flash)
deriving Repr, DecidableEq

/-- Result of one run of the resend handler. -/
structure ResendResult where
  db : Db
  res : ResendRes
  emails : List EmailAttempt
deriving Repr

/-- The `POST /admin/invite/:inviteId/resend` handler of `src/server.ts`:
re-renders the invite email for the existing token and re-sends it.
`sendOk` models whether `sendEmail` resolves; `errMsg` the message of the
caught error when it rejects.  The handler contains no write statement,
so every branch returns the store it was given. -/
def postAdminResend (env : Env) (db : Db) (inviteId : String)
    (sendOk : Bool) (errMsg : String) : ResendResult :=
  match db.invites.find? (fun i => i.id == inviteId) with
  | Option.none =>
    ⟨db, ResendRes.toDashboard (some ⟨FlashType.error, "Invite not found or missing recipient email."⟩), []⟩
  | some inv =>
    match inv.recipient_email with
    | Option.none =>
      ⟨db, ResendRes.toDashboard (some ⟨FlashType.error, "Invite not found or missing recipient email."⟩), []⟩
    | some re =>
      match findEventById db inv.date_night_id with
      | Option.none => ⟨db, ResendRes.toDashboard Option.none, []⟩
      | some dn =>
        match getTheme dn.theme_id with
        | Option.none => ⟨db, ResendRes.toDateNightPage dn.id Option.none, []⟩
        | some theme =>
          let inviteUrl := baseUrl env ++ "/invite/" ++ inv.token
          let email := renderInviteEmail dn.title theme.name theme.blurb inviteUrl
          let flash : Flash :=
            if sendOk then ⟨FlashType.info, "Invite re-sent ✉️"⟩
            else ⟨FlashType.error, "Re-send failed: " ++ errMsg⟩
          ⟨db, ResendRes.toDateNightPage dn.id (some flash), [⟨re, email⟩]⟩

/-- Sample menu value: the stored `menu_json` of a small event. -/
def sampleMenuJson : Json := stringifyMenu ["Pasta night"] ["Board games"] ["Romantic"]

/-- Sample event row used by concrete scenarios. -/
def sampleEvent : DateNight :=
  ⟨"ev1", "Friday", "cottagecore-classic", Option.none, sampleMenuJson, Option.none,
   "2024-01-01T00:00:00.000Z"⟩

/-- Sample pending invite for `sampleEvent`. -/
def sampleInvite : Invite :=
  ⟨"inv1", "ev1", "tok1", Option.none, Option.none, "2024-01-01T00:00:00.000Z"⟩

/-- Store with one event, one pending invite, no selections. -/
def sampleDb : Db := ⟨[sampleEvent], [sampleInvite], []⟩

/-- A valid submission for `sampleDb`'s menu. -/
def sampleBody : SubmitBody := ⟨"Pasta night", "Board games", "Romantic", ""⟩

/-- Environment with no planner email and no base URL configured. -/
def env0 : Env := ⟨"", ""⟩

/-- A selection row for `sampleInvite`, as committed by a completed or
half-completed earlier run. -/
def racedSelection : Selection :=
  ⟨"selX", "inv1", "Pasta night", "Board games", "Romantic", Option.none,
   "2024-01-02T00:00:00.000Z"⟩

/-- Store in which a selection for `inv1` exists while the invite still
reads pending: exactly the state the losing side of a race (or a crashed
run) observes. -/
def racedDb : Db := ⟨[sampleEvent], [sampleInvite], [racedSelection]⟩

/-- Store containing a pending invite whose `date_night_id` resolves to
no event row (deletion raced with invite resolution). -/
def danglingDb : Db :=
  ⟨[], [⟨"inv2", "evGone", "tok2", Option.none, Option.none, "2024-01-01T00:00:00.000Z"⟩], []⟩

/-- Store whose menu contains an option with a leading space (reachable:
`POST /admin/new` serializes `req.body.menu` without trimming). -/
def untrimmedMenuDb : Db :=
  ⟨[⟨"ev2", "Friday", "cottagecore-classic", Option.none,
     stringifyMenu [" Pasta"] ["Board games"] ["Romantic"], Option.none,
     "2024-01-01T00:00:00.000Z"⟩],
   [⟨"inv3", "ev2", "tok3", Option.none, Option.none, "2024-01-01T00:00:00.000Z"⟩],
   []⟩

/-- Environment with a planner address (with stray spaces, exercising the
trim in `plannerEmail()`) and a base URL with a trailing slash. -/
def envP : Env := ⟨" planner@example.com ", "http://h/"⟩

/-- Pending invite for `sampleEvent` that carries a recipient address. -/
def emailedInvite : Invite :=
  ⟨"inv5", "ev1", "tok5", some "partner@example.com", Option.none, "2024-01-01T00:00:00.000Z"⟩

/-- Store with one event and one pending invite with a recipient. -/
def emailedDb : Db := ⟨[sampleEvent], [emailedInvite], []⟩

/-- Event whose menu initially offers "Pasta" (for the live-reference
scenario). -/
def c4Event : DateNight :=
  ⟨"ev4", "Trip", "cottagecore-classic", Option.none,
   stringifyMenu ["Pasta"] ["Board games"] ["Romantic"], Option.none,
   "2024-01-01T00:00:00.000Z"⟩

/-- Pending invite for `c4Event`, issued while its menu offered "Pasta". -/
def c4Invite : Invite :=
  ⟨"inv4", "ev4", "tok4", Option.none, Option.none, "2024-01-01T00:00:00.000Z"⟩

/-- A JSON value strict-equals a string exactly when it is that string. -/
theorem isStrEq_iff (x : String) (j : Json) : Json.isStrEq x j = true ↔ j = Json.str x := by
  cases j <;> simp [Json.isStrEq]
  exact eq_comm

/-- `Array.prototype.includes` on a decoded group is membership. -/
theorem any_isStrEq_iff (l : List Json) (x : String) :
    l.any (Json.isStrEq x) = true ↔ Json.str x ∈ l := by
  simp [List.any_eq_true, isStrEq_iff]

/-- `includes` over a group of encoded strings is plain string membership. -/
theorem anyStr_map_iff (l : List String) (x : String) :
    (l.map Json.str).any (Json.isStrEq x) = true ↔ x ∈ l := by
  simp [List.any_eq_true, isStrEq_iff]

/-- The validation expression, characterised as membership of the three
submitted strings in the corresponding groups. -/
theorem selectionValid_iff (menu : ParsedMenu) (dinner activity mood : String) :
    selectionValid menu dinner activity mood = true ↔
      (Json.str dinner ∈ menu.dinner ∧ Json.str activity ∈ menu.activity ∧
       Json.str mood ∈ menu.mood) := by
  simp only [selectionValid, Bool.and_eq_true, any_isStrEq_iff]
  exact and_assoc

/-- Decoding a menu written by the menu editor recovers its groups. -/
theorem safeParse_stringifyMenu (dinner activity mood : List String) :
    safeParseMenuJson (some (stringifyMenu dinner activity mood)) =
      ⟨dinner.map Json.str, activity.map Json.str, mood.map Json.str⟩ := rfl

/-- Validation against a menu written by the menu editor is string
membership in the edited groups. -/
theorem selectionValid_stringify (d a m : List String) (x y z : String) :
    selectionValid (safeParseMenuJson (some (stringifyMenu d a m))) x y z = true ↔
      (x ∈ d ∧ y ∈ a ∧ z ∈ m) := by
  rw [safeParse_stringifyMenu]
  simp only [selectionValid, Bool.and_eq_true, anyStr_map_iff]
  exact and_assoc

/-- Branch equation: unknown token. -/
theorem postInviteToken_noInvite (env : Env) (db : Db) (token : String) (body : SubmitBody)
    (selId now : String) (fault : Fault) (ok1 ok2 : Bool)
    (h : findInviteByToken db token = Option.none) :
    postInviteToken env db token body selId now fault ok1 ok2 =
      ⟨db, PostInviteRes.redirect (some inviteNotFoundFlash), [], []⟩ := by
  unfold postInviteToken
  rw [h]

/-- Branch equation: invite already marked used. -/
theorem postInviteToken_used (env : Env) (db : Db) (token : String) (body : SubmitBody)
    (selId now : String) (fault : Fault) (ok1 ok2 : Bool) (inv : Invite) (t : String)
    (hinv : findInviteByToken db token = some inv) (hused : inv.used_at = some t) :
    postInviteToken env db token body selId now fault ok1 ok2 =
      ⟨db, PostInviteRes.redirect (some alreadyUsedFlash), [], []⟩ := by
  unfold postInviteToken
  rw [hinv]
  simp [hused]

/-- Branch equation: the invite's event row no longer exists. -/
theorem postInviteToken_noEvent (env : Env) (db : Db) (token : String) (body : SubmitBody)
    (selId now : String) (fault : Fault) (ok1 ok2 : Bool) (inv : Invite)
    (hinv : findInviteByToken db token = some inv) (hused : inv.used_at = Option.none)
    (hdn : findEventById db inv.date_night_id = Option.none) :
    postInviteToken env db token body selId now fault ok1 ok2 =
      ⟨db, PostInviteRes.redirect Option.none, [], []⟩ := by
  unfold postInviteToken
  rw [hinv]
  simp [hused, hdn]

/-- Branch equation: the event's theme is unknown. -/
theorem postInviteToken_noTheme (env : Env) (db : Db) (token : String) (body : SubmitBody)
    (selId now : String) (fault : Fault) (ok1 ok2 : Bool) (inv : Invite) (dn : DateNight)
    (hinv : findInviteByToken db token = some inv) (hused : inv.used_at = Option.none)
    (hdn : findEventById db inv.date_night_id = some dn)
    (htheme : getTheme dn.theme_id = Option.none) :
    postInviteToken env db token body selId now fault ok1 ok2 =
      ⟨db, PostInviteRes.redirect Option.none, [], []⟩ := by
  unfold postInviteToken
  rw [hinv]
  simp [hused, hdn, htheme]

/-- Branch equation: validation fails. -/
theorem postInviteToken_invalid (env : Env) (db : Db) (token : String) (body : SubmitBody)
    (selId now : String) (fault : Fault) (ok1 ok2 : Bool) (inv : Invite) (dn : DateNight)
    (theme : Theme)
    (hinv : findInviteByToken db token = some inv) (hused : inv.used_at = Option.none)
    (hdn : findEventById db inv.date_night_id = some dn)
    (htheme : getTheme dn.theme_id = some theme)
    (hvalid : selectionValid (safeParseMenuJson (some dn.menu_json))
        (jsTrim body.dinnerChoice) (jsTrim body.activityChoice) (jsTrim body.moodChoice) = false) :
    postInviteToken env db token body selId now fault ok1 ok2 =
      ⟨db, PostInviteRes.redirect (some invalidSelectionFlash), [], []⟩ := by
  unfold postInviteToken
  rw [hinv]
  simp [hused, hdn, htheme, hvalid]

/-- Branch equation: a selection row for the invite already exists, so the
INSERT hits the UNIQUE constraint and the exception propagates. -/
theorem postInviteToken_constraint (env : Env) (db : Db) (token : String) (body : SubmitBody)
    (selId now : String) (fault : Fault) (ok1 ok2 : Bool) (inv : Invite) (dn : DateNight)
    (theme : Theme)
    (hinv : findInviteByToken db token = some inv) (hused : inv.used_at = Option.none)
    (hdn : findEventById db inv.date_night_id = some dn)
    (htheme : getTheme dn.theme_id = some theme)
    (hvalid : selectionValid (safeParseMenuJson (some dn.menu_json))
        (jsTrim body.dinnerChoice) (jsTrim body.activityChoice) (jsTrim body.moodChoice) = true)
    (hsel : hasSelectionFor db inv.id = true) :
    postInviteToken env db token body selId now fault ok1 ok2 =
      ⟨db, PostInviteRes.raised, [], []⟩ := by
  unfold postInviteToken
  rw [hinv]
  simp [hused, hdn, htheme, hvalid, hsel]

/-- Branch equation: a fault strikes between the INSERT and the UPDATE:
the selection row is committed, the used timestamp is not. -/
theorem postInviteToken_crash (env : Env) (db : Db) (token : String) (body : SubmitBody)
    (selId now : String) (ok1 ok2 : Bool) (inv : Invite) (dn : DateNight) (theme : Theme)
    (hinv : findInviteByToken db token = some inv) (hused : inv.used_at = Option.none)
    (hdn : findEventById db inv.date_night_id = some dn)
    (htheme : getTheme dn.theme_id = some theme)
    (hvalid : selectionValid (safeParseMenuJson (some dn.menu_json))
        (jsTrim body.dinnerChoice) (jsTrim body.activityChoice) (jsTrim body.moodChoice) = true)
    (hnosel : hasSelectionFor db inv.id = false) :
    postInviteToken env db token body selId now Fault.crashAfterInsert ok1 ok2 =
      ⟨{ db with selections := db.selections ++
          [⟨selId, inv.id, jsTrim body.dinnerChoice, jsTrim body.activityChoice,
            jsTrim body.moodChoice, orNullTrim body.notes, now⟩] },
        PostInviteRes.crashed, [], []⟩ := by
  unfold postInviteToken
  rw [hinv]
  simp [hused, hdn, htheme, hvalid, hnosel]

/-- Branch equation: the successful run: selection inserted, invite marked
used, notifications attempted, thanks page rendered. -/
theorem postInviteToken_success (env : Env) (db : Db) (token : String) (body : SubmitBody)
    (selId now : String) (ok1 ok2 : Bool) (inv : Invite) (dn : DateNight) (theme : Theme)
    (hinv : findInviteByToken db token = some inv) (hused : inv.used_at = Option.none)
    (hdn : findEventById db inv.date_night_id = some dn)
    (htheme : getTheme dn.theme_id = some theme)
    (hvalid : selectionValid (safeParseMenuJson (some dn.menu_json))
        (jsTrim body.dinnerChoice) (jsTrim body.activityChoice) (jsTrim body.moodChoice) = true)
    (hnosel : hasSelectionFor db inv.id = false) :
    postInviteToken env db token body selId now Fault.noFault ok1 ok2 =
      ⟨{ db with
          selections := db.selections ++
            [⟨selId, inv.id, jsTrim body.dinnerChoice, jsTrim body.activityChoice,
              jsTrim body.moodChoice, orNullTrim body.notes, now⟩],
          invites := markInviteUsed db.invites inv.id now },
        PostInviteRes.thanks,
        (if plannerEmail env == "" then []
         else [⟨plannerEmail env,
                renderPlannerEmail dn.title theme.name (baseUrl env ++ "/invite/" ++ token)
                  (jsTrim body.dinnerChoice) (jsTrim body.activityChoice)
                  (jsTrim body.moodChoice) (orNullTrim body.notes)⟩])
          ++ (match inv.recipient_email with
              | some re => [⟨re, renderPartnerConfirmationEmail dn.title theme.name⟩]
              | Option.none => []),
        (if plannerEmail env == "" then
            ["[planner-email:missing] Set PLANNER_EMAIL to receive selections."]
         else if ok1 then [] else ["Planner email failed"])
          ++ (match inv.recipient_email with
              | some _ => if ok2 then [] else ["Partner confirmation email failed"]
              | Option.none => [])⟩ := by
  unfold postInviteToken
  rw [hinv]
  simp [hused, hdn, htheme, hvalid, hnosel]

/-- C1: the claim says the Selection insert and the used-timestamp update
form one atomic unit, so that after any complete or faulted run a
Selection exists iff the invite is marked used.  The code violates this:
the two writes are separate autocommitted statements with no transaction,
and this theorem evaluates the handler on a concrete pending invite with
a fault injected between the two statements: the resulting store holds a
committed Selection for invite `inv1` while that invite's `used_at` is
still absent. -/
theorem c1_fault_between_writes_leaves_selection_with_pending_invite :
    (postInviteToken env0 sampleDb "tok1" sampleBody "sel1" "T1"
        Fault.crashAfterInsert true true).db.selections
      = [⟨"sel1", "inv1", "Pasta night", "Board games", "Romantic", Option.none, "T1"⟩]
    ∧ hasSelectionFor (postInviteToken env0 sampleDb "tok1" sampleBody "sel1" "T1"
        Fault.crashAfterInsert true true).db "inv1" = true
    ∧ (postInviteToken env0 sampleDb "tok1" sampleBody "sel1" "T1"
        Fault.crashAfterInsert true true).db.invites = [sampleInvite]
    ∧ sampleInvite.used_at = Option.none :=
  ⟨by decide, by decide, by decide, rfl⟩

/-- C2 (counterexample): the claim says a record call that loses to an
existing Selection row is reported as AlreadyUsed and never as a generic
storage fault.  In the state where a Selection for the invite exists but
the invite still reads pending (exactly what the race loser observes),
the handler's pending check passes, the INSERT hits the UNIQUE constraint
and the exception propagates uncaught (`raised`) — not the already-used
redirect. -/
theorem c2_counterexample_loser_raises_storage_error :
    (postInviteToken env0 racedDb "tok1" sampleBody "sel1" "T1" Fault.noFault true true).res
      = PostInviteRes.raised
    ∧ (postInviteToken env0 racedDb "tok1" sampleBody "sel1" "T1" Fault.noFault true true).res
      ≠ PostInviteRes.redirect (some alreadyUsedFlash)
    ∧ (postInviteToken env0 racedDb "tok1" sampleBody "sel1" "T1" Fault.noFault true true).db.selections
      = [racedSelection] :=
  ⟨by decide, by decide, by decide⟩

/-- C2 (amended): when a Selection row already exists for the resolved
invite, the record operation never succeeds and never creates a second
Selection; if the invite is already marked used the caller gets the
AlreadyUsed redirect, but when the invite still reads pending and the
submission is otherwise valid the uniqueness constraint makes the INSERT
raise an uncaught storage error instead of AlreadyUsed. -/
theorem c2_amended_unique_constraint_blocks_second_selection
    (env : Env) (db : Db) (token : String) (body : SubmitBody) (selId now : String)
    (fault : Fault) (ok1 ok2 : Bool) (inv : Invite)
    (hinv : findInviteByToken db token = some inv)
    (hsel : hasSelectionFor db inv.id = true) :
    (postInviteToken env db token body selId now fault ok1 ok2).db.selections = db.selections
    ∧ (postInviteToken env db token body selId now fault ok1 ok2).res ≠ PostInviteRes.thanks
    ∧ (∀ dn : DateNight, inv.used_at = Option.none →
        findEventById db inv.date_night_id = some dn →
        (getTheme dn.theme_id).isSome = true →
        selectionValid (safeParseMenuJson (some dn.menu_json))
          (jsTrim body.dinnerChoice) (jsTrim body.activityChoice) (jsTrim body.moodChoice) = true →
        (postInviteToken env db token body selId now fault ok1 ok2).res = PostInviteRes.raised) := by
  cases hused : inv.used_at with
  | some t =>
    rw [postInviteToken_used env db token body selId now fault ok1 ok2 inv t hinv hused]
    refine ⟨rfl, by simp, ?_⟩
    intro dn hnone
    exact absurd hnone (by simp)
  | none =>
    cases hdn : findEventById db inv.date_night_id with
    | none =>
      rw [postInviteToken_noEvent env db token body selId now fault ok1 ok2 inv hinv hused hdn]
      refine ⟨rfl, by simp, ?_⟩
      intro dn _ hsome
      exact absurd hsome (by simp)
    | some dn =>
      cases htheme : getTheme dn.theme_id with
      | none =>
        rw [postInviteToken_noTheme env db token body selId now fault ok1 ok2 inv dn hinv hused hdn htheme]
        refine ⟨rfl, by simp, ?_⟩
        intro dn' _ hsome hth
        injection hsome with h
        subst h
        rw [htheme] at hth
        exact absurd hth (by simp)
      | some theme =>
        cases hval : selectionValid (safeParseMenuJson (some dn.menu_json))
            (jsTrim body.dinnerChoice) (jsTrim body.activityChoice) (jsTrim body.moodChoice) with
        | false =>
          rw [postInviteToken_invalid env db token body selId now fault ok1 ok2 inv dn theme
            hinv hused hdn htheme hval]
          refine ⟨rfl, by simp, ?_⟩
          intro dn' _ hsome _ hv
          injection hsome with h
          subst h
          rw [hval] at hv
          exact absurd hv (by simp)
        | true =>
          rw [postInviteToken_constraint env db token body selId now fault ok1 ok2 inv dn theme
            hinv hused hdn htheme hval hsel]
          exact ⟨rfl, by simp, fun _ _ _ _ _ => rfl⟩

/-- C2 (witness): the amended theorem applied to the raced store. -/
theorem c2_amended_unique_constraint_blocks_second_selection_witness :
    findInviteByToken racedDb "tok1" = some sampleInvite
    ∧ hasSelectionFor racedDb sampleInvite.id = true
    ∧ (postInviteToken env0 racedDb "tok1" sampleBody "sel1" "T1" Fault.noFault true true).db.selections
        = racedDb.selections
    ∧ (postInviteToken env0 racedDb "tok1" sampleBody "sel1" "T1" Fault.noFault true true).res
        = PostInviteRes.raised := by
  have h := c2_amended_unique_constraint_blocks_second_selection env0 racedDb "tok1" sampleBody
    "sel1" "T1" Fault.noFault true true sampleInvite (by decide) (by decide)
  exact ⟨by decide, by decide, h.1, h.2.2 sampleEvent rfl rfl (by decide) (by decide)⟩

/-- C3 (counterexample): the claim says a failed validation enumerates
which field(s) failed.  Two submissions failing on different fields — the
first fails only the dinner membership, the second only the activity
membership — produce the identical generic flash message, so the response
carries no information about which field failed. -/
theorem c3_counterexample_failure_message_not_enumerated :
    selectionValid (safeParseMenuJson (some sampleMenuJson)) "WRONG" "Board games" "Romantic" = false
    ∧ selectionValid (safeParseMenuJson (some sampleMenuJson)) "Pasta night" "WRONG" "Romantic" = false
    ∧ (postInviteToken env0 sampleDb "tok1" ⟨"WRONG", "Board games", "Romantic", ""⟩
        "sel1" "T1" Fault.noFault true true).res
      = PostInviteRes.redirect (some invalidSelectionFlash)
    ∧ (postInviteToken env0 sampleDb "tok1" ⟨"Pasta night", "WRONG", "Romantic", ""⟩
        "sel1" "T1" Fault.noFault true true).res
      = PostInviteRes.redirect (some invalidSelectionFlash)
    ∧ (postInviteToken env0 sampleDb "tok1" ⟨"WRONG", "Board games", "Romantic", ""⟩
        "sel1" "T1" Fault.noFault true true).res
      = (postInviteToken env0 sampleDb "tok1" ⟨"Pasta night", "WRONG", "Romantic", ""⟩
        "sel1" "T1" Fault.noFault true true).res :=
  ⟨by decide, by decide, by decide, by decide, by decide⟩

/-- C3 (amended): validation succeeds exactly when each of the three
(normalized) submitted strings is literally a member of the corresponding
menu group — case-sensitive, with no special case for the empty string —
and a failed validation redirects with the single generic
invalid-selection flash, the same for every combination of failing
fields. -/
theorem c3_amended_validation_exact_membership_generic_message :
    (∀ (menu : ParsedMenu) (dinner activity mood : String),
        selectionValid menu dinner activity mood = true ↔
          (Json.str dinner ∈ menu.dinner ∧ Json.str activity ∈ menu.activity ∧
           Json.str mood ∈ menu.mood))
    ∧ (∀ (env : Env) (db : Db) (token : String) (body : SubmitBody) (selId now : String)
          (fault : Fault) (ok1 ok2 : Bool) (inv : Invite) (dn : DateNight) (theme : Theme),
        findInviteByToken db token = some inv →
        inv.used_at = Option.none →
        findEventById db inv.date_night_id = some dn →
        getTheme dn.theme_id = some theme →
        selectionValid (safeParseMenuJson (some dn.menu_json))
          (jsTrim body.dinnerChoice) (jsTrim body.activityChoice) (jsTrim body.moodChoice) = false →
        postInviteToken env db token body selId now fault ok1 ok2 =
          ⟨db, PostInviteRes.redirect (some invalidSelectionFlash), [], []⟩) :=
  ⟨selectionValid_iff,
   fun env db token body selId now fault ok1 ok2 inv dn theme hinv hused hdn htheme hval =>
     postInviteToken_invalid env db token body selId now fault ok1 ok2 inv dn theme
       hinv hused hdn htheme hval⟩

/-- C3 (witness): the amended theorem applied to concrete menus — a fully
matching triple validates, and a concrete failing submission produces the
generic invalid-selection redirect. -/
theorem c3_amended_validation_exact_membership_generic_message_witness :
    selectionValid (safeParseMenuJson (some sampleMenuJson)) "Pasta night" "Board games" "Romantic" = true
    ∧ (postInviteToken env0 sampleDb "tok1" ⟨"", "Board games", "Romantic", ""⟩ "sel1" "T1"
        Fault.noFault true true)
      = ⟨sampleDb, PostInviteRes.redirect (some invalidSelectionFlash), [], []⟩ := by
  constructor
  · exact (c3_amended_validation_exact_membership_generic_message.1
      (safeParseMenuJson (some sampleMenuJson)) "Pasta night" "Board games" "Romantic").mpr
      ⟨List.mem_cons_self _ _, List.mem_cons_self _ _, List.mem_cons_self _ _⟩
  · exact c3_amended_validation_exact_membership_generic_message.2 env0 sampleDb "tok1"
      ⟨"", "Board games", "Romantic", ""⟩ "sel1" "T1" Fault.noFault true true sampleInvite
      sampleEvent cottagecoreTheme (by decide) rfl rfl (by decide) (by decide)

/-- C5 (counterexample): the claim says every failing run of
`POST /invite/:token` redirects back with one of three transient
messages.  A pending invite whose event row is missing is a failing run
that redirects with no flash at all. -/
theorem c5_counterexample_missing_event_redirects_without_flash :
    (postInviteToken env0 danglingDb "tok2" sampleBody "sel1" "T1" Fault.noFault true true).res
      = PostInviteRes.redirect Option.none
    ∧ (postInviteToken env0 danglingDb "tok2" sampleBody "sel1" "T1" Fault.noFault true true).res
      ≠ PostInviteRes.thanks
    ∧ (postInviteToken env0 danglingDb "tok2" sampleBody "sel1" "T1" Fault.noFault true true).db.selections
      = [] :=
  ⟨by decide, by decide, by decide⟩

/-- C5 (amended): every flash a failing run of `POST /invite/:token`
redirects with is one of the three messages of the claim (no other
message kind exists), but two failure paths redirect with no message at
all: exactly the paths where the resolved pending invite's event row is
missing or its theme is unknown.  (The duplicate-selection path raises
instead of redirecting; see C2.) -/
theorem c5_amended_redirect_messages (env : Env) (db : Db) (token : String) (body : SubmitBody)
    (selId now : String) (fault : Fault) (ok1 ok2 : Bool) :
    (∀ f : Flash,
        (postInviteToken env db token body selId now fault ok1 ok2).res
          = PostInviteRes.redirect (some f) →
        f = inviteNotFoundFlash ∨ f = alreadyUsedFlash ∨ f = invalidSelectionFlash)
    ∧ ((postInviteToken env db token body selId now fault ok1 ok2).res
          = PostInviteRes.redirect Option.none →
        ∃ inv, findInviteByToken db token = some inv ∧ inv.used_at = Option.none ∧
          (findEventById db inv.date_night_id = Option.none ∨
           ∃ dn, findEventById db inv.date_night_id = some dn ∧
             getTheme dn.theme_id = Option.none)) := by
  cases hinv : findInviteByToken db token with
  | none =>
    rw [postInviteToken_noInvite env db token body selId now fault ok1 ok2 hinv]
    constructor
    · intro f hf
      simp only [PostInviteRes.redirect.injEq, Option.some.injEq] at hf
      exact Or.inl hf.symm
    · intro hf
      simp at hf
  | some inv =>
    cases hused : inv.used_at with
    | some t =>
      rw [postInviteToken_used env db token body selId now fault ok1 ok2 inv t hinv hused]
      constructor
      · intro f hf
        simp only [PostInviteRes.redirect.injEq, Option.some.injEq] at hf
        exact Or.inr (Or.inl hf.symm)
      · intro hf
        simp at hf
    | none =>
      cases hdn : findEventById db inv.date_night_id with
      | none =>
        rw [postInviteToken_noEvent env db token body selId now fault ok1 ok2 inv hinv hused hdn]
        constructor
        · intro f hf
          simp at hf
        · intro _
          exact ⟨inv, rfl, hused, Or.inl hdn⟩
      | some dn =>
        cases htheme : getTheme dn.theme_id with
        | none =>
          rw [postInviteToken_noTheme env db token body selId now fault ok1 ok2 inv dn
            hinv hused hdn htheme]
          constructor
          · intro f hf
            simp at hf
          · intro _
            exact ⟨inv, rfl, hused, Or.inr ⟨dn, hdn, htheme⟩⟩
        | some theme =>
          cases hval : selectionValid (safeParseMenuJson (some dn.menu_json))
              (jsTrim body.dinnerChoice) (jsTrim body.activityChoice) (jsTrim body.moodChoice) with
          | false =>
            rw [postInviteToken_invalid env db token body selId now fault ok1 ok2 inv dn theme
              hinv hused hdn htheme hval]
            constructor
            · intro f hf
              simp only [PostInviteRes.redirect.injEq, Option.some.injEq] at hf
              exact Or.inr (Or.inr hf.symm)
            · intro hf
              simp at hf
          | true =>
            cases hsel : hasSelectionFor db inv.id with
            | true =>
              rw [postInviteToken_constraint env db token body selId now fault ok1 ok2 inv dn theme
                hinv hused hdn htheme hval hsel]
              exact ⟨fun f hf => by simp at hf, fun hf => by simp at hf⟩
            | false =>
              cases fault with
              | crashAfterInsert =>
                rw [postInviteToken_crash env db token body selId now ok1 ok2 inv dn theme
                  hinv hused hdn htheme hval hsel]
                exact ⟨fun f hf => by simp at hf, fun hf => by simp at hf⟩
              | noFault =>
                rw [postInviteToken_success env db token body selId now ok1 ok2 inv dn theme
                  hinv hused hdn htheme hval hsel]
                exact ⟨fun f hf => by simp at hf, fun hf => by simp at hf⟩

/-- C5 (witness): the amended theorem applied to a run that fails with
the unknown-token message. -/
theorem c5_amended_redirect_messages_witness :
    (postInviteToken env0 (⟨[], [], []⟩ : Db) "nope" sampleBody "sel1" "T1" Fault.noFault true true).res
      = PostInviteRes.redirect (some inviteNotFoundFlash)
    ∧ (inviteNotFoundFlash = inviteNotFoundFlash ∨ inviteNotFoundFlash = alreadyUsedFlash
        ∨ inviteNotFoundFlash = invalidSelectionFlash) := by
  refine ⟨by decide, ?_⟩
  exact (c5_amended_redirect_messages env0 ⟨[], [], []⟩ "nope" sampleBody "sel1" "T1"
    Fault.noFault true true).1 inviteNotFoundFlash (by decide)

/-- Recording against a store whose single event carries a menu written
by the menu editor: validation is membership in the edited groups. -/
theorem record_against_stringified_menu
    (env : Env) (d a m : List String) (ev : DateNight) (inv : Invite) (body : SubmitBody)
    (selId now : String) (ok1 ok2 : Bool) (theme : Theme)
    (hmenu : ev.menu_json = stringifyMenu d a m)
    (hlink : inv.date_night_id = ev.id)
    (hpending : inv.used_at = Option.none)
    (htheme : getTheme ev.theme_id = some theme) :
    (jsTrim body.dinnerChoice ∉ d →
      (postInviteToken env (⟨[ev], [inv], []⟩ : Db) inv.token body selId now
          Fault.noFault ok1 ok2).res = PostInviteRes.redirect (some invalidSelectionFlash))
    ∧ (jsTrim body.dinnerChoice ∈ d → jsTrim body.activityChoice ∈ a → jsTrim body.moodChoice ∈ m →
      (postInviteToken env (⟨[ev], [inv], []⟩ : Db) inv.token body selId now
          Fault.noFault ok1 ok2).res = PostInviteRes.thanks) := by
  have hinv2 : findInviteByToken (⟨[ev], [inv], []⟩ : Db) inv.token = some inv :=
    List.find?_cons_of_pos _ (by simp)
  have hdn2 : findEventById (⟨[ev], [inv], []⟩ : Db) inv.date_night_id = some ev :=
    List.find?_cons_of_pos _ (by simp [hlink])
  constructor
  · intro hnd
    have hval : selectionValid (safeParseMenuJson (some ev.menu_json))
        (jsTrim body.dinnerChoice) (jsTrim body.activityChoice) (jsTrim body.moodChoice) = false := by
      rw [hmenu]
      apply Bool.eq_false_iff.mpr
      intro h
      rw [selectionValid_stringify] at h
      exact hnd h.1
    rw [postInviteToken_invalid env _ inv.token body selId now Fault.noFault ok1 ok2 inv ev theme
      hinv2 hpending hdn2 htheme hval]
  · intro hd ha hm
    have hval : selectionValid (safeParseMenuJson (some ev.menu_json))
        (jsTrim body.dinnerChoice) (jsTrim body.activityChoice) (jsTrim body.moodChoice) = true := by
      rw [hmenu]
      exact (selectionValid_stringify d a m _ _ _).mpr ⟨hd, ha, hm⟩
    have hnosel : hasSelectionFor (⟨[ev], [inv], []⟩ : Db) inv.id = false := rfl
    rw [postInviteToken_success env _ inv.token body selId now ok1 ok2 inv ev theme
      hinv2 hpending hdn2 htheme hval hnosel]

/-- C4: live-reference semantics of the menu.  For any event whose menu
offered "Pasta" when the (still pending) invite was issued, editing the
menu so that its dinner group no longer contains "Pasta" but contains
"Tacos" makes a subsequent submission of `dinnerChoice="Pasta"` fail with
the invalid-selection redirect and one of `dinnerChoice="Tacos"`
succeed: submissions are validated against the menu current at record
time, not against a copy frozen at issue time. -/
theorem c4_menu_edits_apply_to_pending_invites
    (env : Env) (e : DateNight) (inv : Invite)
    (dinnerInput activityInput moodInput blurbInput : String)
    (actChoice moodChoice notesInput selId now : String) (ok1 ok2 : Bool) (theme : Theme)
    (hlink : inv.date_night_id = e.id)
    (hpending : inv.used_at = Option.none)
    (htheme : getTheme e.theme_id = some theme)
    (hIssuedWithPasta : Json.str "Pasta" ∈ (safeParseMenuJson (some e.menu_json)).dinner)
    (hNoPasta : "Pasta" ∉ parseLines dinnerInput)
    (hTacos : "Tacos" ∈ parseLines dinnerInput)
    (hAct : jsTrim actChoice ∈ parseLines activityInput)
    (hMood : jsTrim moodChoice ∈ parseLines moodInput) :
    (postInviteToken env
        (postAdminMenu (⟨[e], [inv], []⟩ : Db) e.id dinnerInput activityInput moodInput blurbInput).1
        inv.token ⟨"Pasta", actChoice, moodChoice, notesInput⟩ selId now Fault.noFault ok1 ok2).res
      = PostInviteRes.redirect (some invalidSelectionFlash)
    ∧ (postInviteToken env
        (postAdminMenu (⟨[e], [inv], []⟩ : Db) e.id dinnerInput activityInput moodInput blurbInput).1
        inv.token ⟨"Tacos", actChoice, moodChoice, notesInput⟩ selId now Fault.noFault ok1 ok2).res
      = PostInviteRes.thanks := by
  have h1 : ((parseLines dinnerInput).length == 0) = false := by
    simp only [beq_eq_false_iff_ne, ne_eq, List.length_eq_zero]
    exact List.ne_nil_of_mem hTacos
  have h2 : ((parseLines activityInput).length == 0) = false := by
    simp only [beq_eq_false_iff_ne, ne_eq, List.length_eq_zero]
    exact List.ne_nil_of_mem hAct
  have h3 : ((parseLines moodInput).length == 0) = false := by
    simp only [beq_eq_false_iff_ne, ne_eq, List.length_eq_zero]
    exact List.ne_nil_of_mem hMood
  have hfind : findEventById (⟨[e], [inv], []⟩ : Db) e.id = some e :=
    List.find?_cons_of_pos _ (by simp)
  have hedit : (postAdminMenu (⟨[e], [inv], []⟩ : Db) e.id
        dinnerInput activityInput moodInput blurbInput).1
      = ⟨[⟨e.id, e.title, e.theme_id, e.date_iso,
            stringifyMenu (parseLines dinnerInput) (parseLines activityInput) (parseLines moodInput),
            orNullTrim blurbInput, e.created_at⟩], [inv], []⟩ := by
    unfold postAdminMenu
    rw [hfind]
    simp [h1, h2, h3]
  rw [hedit]
  have core := record_against_stringified_menu env
    (parseLines dinnerInput) (parseLines activityInput) (parseLines moodInput)
    ⟨e.id, e.title, e.theme_id, e.date_iso,
      stringifyMenu (parseLines dinnerInput) (parseLines activityInput) (parseLines moodInput),
      orNullTrim blurbInput, e.created_at⟩ inv
  exact ⟨(core ⟨"Pasta", actChoice, moodChoice, notesInput⟩ selId now ok1 ok2 theme rfl hlink
            hpending htheme).1 hNoPasta,
         (core ⟨"Tacos", actChoice, moodChoice, notesInput⟩ selId now ok1 ok2 theme rfl hlink
            hpending htheme).2 hTacos hAct hMood⟩

/-- C4 (witness): the concrete scenario of the claim — menu edited from
offering "Pasta" to offering "Tacos"; the pending invite's submission of
"Pasta" is rejected and "Tacos" is accepted. -/
theorem c4_menu_edits_apply_to_pending_invites_witness :
    "Pasta" ∉ parseLines "Soup\nTacos"
    ∧ "Tacos" ∈ parseLines "Soup\nTacos"
    ∧ (postInviteToken env0
        (postAdminMenu (⟨[c4Event], [c4Invite], []⟩ : Db) "ev4"
          "Soup\nTacos" "Board games" "Romantic" "").1
        "tok4" ⟨"Pasta", "Board games", "Romantic", ""⟩ "sel1" "T1" Fault.noFault true true).res
      = PostInviteRes.redirect (some invalidSelectionFlash)
    ∧ (postInviteToken env0
        (postAdminMenu (⟨[c4Event], [c4Invite], []⟩ : Db) "ev4"
          "Soup\nTacos" "Board games" "Romantic" "").1
        "tok4" ⟨"Tacos", "Board games", "Romantic", ""⟩ "sel1" "T1" Fault.noFault true true).res
      = PostInviteRes.thanks := by
  have h := c4_menu_edits_apply_to_pending_invites env0 c4Event c4Invite
    "Soup\nTacos" "Board games" "Romantic" "" "Board games" "Romantic" "" "sel1" "T1" true true
    cottagecoreTheme rfl rfl (by decide)
    (show Json.str "Pasta" ∈ [Json.str "Pasta"] from List.mem_cons_self _ _)
    (by decide) (by decide) (by decide) (by decide)
  exact ⟨by decide, by decide, h.1, h.2⟩

/-- C6: notification dispatch is isolated from the committed business
outcome.  The store, the response, and the set of attempted emails after
a run are identical whatever the outcome of the two `sendEmail` calls
(failures are caught and only logged); on a successful record the
response is the thank-you page, the planner email is attempted exactly
when a planner address is configured (its absence is a no-op, not an
error), the recipient confirmation is attempted exactly when the invite
carries a recipient — independently of the planner outcome — and the
committed Selection and used mark are not undone. -/
theorem c6_notifications_isolated (env : Env) (db : Db) (token : String) (body : SubmitBody)
    (selId now : String) (ok1 ok2 : Bool) :
    ((postInviteToken env db token body selId now Fault.noFault ok1 ok2).db
        = (postInviteToken env db token body selId now Fault.noFault true true).db
      ∧ (postInviteToken env db token body selId now Fault.noFault ok1 ok2).res
        = (postInviteToken env db token body selId now Fault.noFault true true).res
      ∧ (postInviteToken env db token body selId now Fault.noFault ok1 ok2).emails
        = (postInviteToken env db token body selId now Fault.noFault true true).emails)
    ∧ (∀ (inv : Invite) (dn : DateNight) (theme : Theme),
        findInviteByToken db token = some inv →
        inv.used_at = Option.none →
        findEventById db inv.date_night_id = some dn →
        getTheme dn.theme_id = some theme →
        selectionValid (safeParseMenuJson (some dn.menu_json))
          (jsTrim body.dinnerChoice) (jsTrim body.activityChoice) (jsTrim body.moodChoice) = true →
        hasSelectionFor db inv.id = false →
        ((postInviteToken env db token body selId now Fault.noFault ok1 ok2).res
            = PostInviteRes.thanks
          ∧ (postInviteToken env db token body selId now Fault.noFault ok1 ok2).emails
              = (if plannerEmail env == "" then []
                 else [⟨plannerEmail env,
                        renderPlannerEmail dn.title theme.name (baseUrl env ++ "/invite/" ++ token)
                          (jsTrim body.dinnerChoice) (jsTrim body.activityChoice)
                          (jsTrim body.moodChoice) (orNullTrim body.notes)⟩])
                ++ (match inv.recipient_email with
                    | some re => [⟨re, renderPartnerConfirmationEmail dn.title theme.name⟩]
                    | Option.none => [])
          ∧ hasSelectionFor (postInviteToken env db token body selId now Fault.noFault ok1 ok2).db
              inv.id = true
          ∧ (∀ i ∈ (postInviteToken env db token body selId now Fault.noFault ok1 ok2).db.invites,
              i.id = inv.id → i.used_at = some now))) := by
  constructor
  · cases hinv : findInviteByToken db token with
    | none =>
      rw [postInviteToken_noInvite env db token body selId now Fault.noFault ok1 ok2 hinv,
          postInviteToken_noInvite env db token body selId now Fault.noFault true true hinv]
      exact ⟨rfl, rfl, rfl⟩
    | some inv =>
      cases hused : inv.used_at with
      | some t =>
        rw [postInviteToken_used env db token body selId now Fault.noFault ok1 ok2 inv t hinv hused,
            postInviteToken_used env db token body selId now Fault.noFault true true inv t hinv hused]
        exact ⟨rfl, rfl, rfl⟩
      | none =>
        cases hdn : findEventById db inv.date_night_id with
        | none =>
          rw [postInviteToken_noEvent env db token body selId now Fault.noFault ok1 ok2 inv
                hinv hused hdn,
              postInviteToken_noEvent env db token body selId now Fault.noFault true true inv
                hinv hused hdn]
          exact ⟨rfl, rfl, rfl⟩
        | some dn =>
          cases htheme : getTheme dn.theme_id with
          | none =>
            rw [postInviteToken_noTheme env db token body selId now Fault.noFault ok1 ok2 inv dn
                  hinv hused hdn htheme,
                postInviteToken_noTheme env db token body selId now Fault.noFault true true inv dn
                  hinv hused hdn htheme]
            exact ⟨rfl, rfl, rfl⟩
          | some theme =>
            cases hval : selectionValid (safeParseMenuJson (some dn.menu_json))
                (jsTrim body.dinnerChoice) (jsTrim body.activityChoice) (jsTrim body.moodChoice) with
            | false =>
              rw [postInviteToken_invalid env db token body selId now Fault.noFault ok1 ok2 inv dn
                    theme hinv hused hdn htheme hval,
                  postInviteToken_invalid env db token body selId now Fault.noFault true true inv dn
                    theme hinv hused hdn htheme hval]
              exact ⟨rfl, rfl, rfl⟩
            | true =>
              cases hsel : hasSelectionFor db inv.id with
              | true =>
                rw [postInviteToken_constraint env db token body selId now Fault.noFault ok1 ok2
                      inv dn theme hinv hused hdn htheme hval hsel,
                    postInviteToken_constraint env db token body selId now Fault.noFault true true
                      inv dn theme hinv hused hdn htheme hval hsel]
                exact ⟨rfl, rfl, rfl⟩
              | false =>
                rw [postInviteToken_success env db token body selId now ok1 ok2 inv dn theme
                      hinv hused hdn htheme hval hsel,
                    postInviteToken_success env db token body selId now true true inv dn theme
                      hinv hused hdn htheme hval hsel]
                exact ⟨rfl, rfl, rfl⟩
  · intro inv dn theme hinv hused hdn htheme hval hnosel
    rw [postInviteToken_success env db token body selId now ok1 ok2 inv dn theme
      hinv hused hdn htheme hval hnosel]
    refine ⟨rfl, rfl, ?_, ?_⟩
    · simp [hasSelectionFor, List.any_append]
    · intro i hi hid
      simp only [markInviteUsed, List.mem_map] at hi
      obtain ⟨i0, hi0, hfn⟩ := hi
      cases hb : (i0.id == inv.id) with
      | true =>
        rw [hb] at hfn
        simp only [if_true] at hfn
        rw [← hfn]
      | false =>
        rw [hb] at hfn
        simp only [Bool.false_eq_true, if_false] at hfn
        rw [← hfn] at hid
        rw [hid] at hb
        simp at hb

/-- C6 (witness): a configured planner, a recipient-carrying invite, and
both `sendEmail` calls failing: the run still commits, still renders the
thank-you page, and both notifications were attempted. -/
theorem c6_notifications_isolated_witness :
    findInviteByToken emailedDb "tok5" = some emailedInvite
    ∧ hasSelectionFor emailedDb "inv5" = false
    ∧ (postInviteToken envP emailedDb "tok5" sampleBody "sel1" "T1" Fault.noFault false false).res
        = PostInviteRes.thanks
    ∧ ((postInviteToken envP emailedDb "tok5" sampleBody "sel1" "T1" Fault.noFault false false).emails.map
          EmailAttempt.toAddr
        = ["planner@example.com", "partner@example.com"])
    ∧ hasSelectionFor
        (postInviteToken envP emailedDb "tok5" sampleBody "sel1" "T1" Fault.noFault false false).db
        "inv5" = true := by
  have h := (c6_notifications_isolated envP emailedDb "tok5" sampleBody "sel1" "T1" false false).2
    emailedInvite sampleEvent cottagecoreTheme (by decide) rfl rfl (by decide) (by decide) rfl
  refine ⟨by decide, by decide, h.1, ?_, h.2.2.1⟩
  rw [h.2.1]
  decide

/-- C7: Edit Menu rejects any update in which a parsed group ends up
empty — leaving the event's stored menu and blurb untouched — and
otherwise replaces all three groups and the blurb, so every menu stored
through Edit Menu has at least one option in each group. -/
theorem c7_menu_edit_rejects_empty_groups
    (db : Db) (id : String) (dinnerInput activityInput moodInput blurbInput : String)
    (dn : DateNight) (hdn : findEventById db id = some dn) :
    ((parseLines dinnerInput = [] ∨ parseLines activityInput = [] ∨ parseLines moodInput = []) →
      (postAdminMenu db id dinnerInput activityInput moodInput blurbInput).1 = db
      ∧ (postAdminMenu db id dinnerInput activityInput moodInput blurbInput).2
          = AdminMenuRes.redirectEditPage
              ⟨FlashType.error, "Please provide at least 1 option in each section."⟩)
    ∧ (parseLines dinnerInput ≠ [] → parseLines activityInput ≠ [] → parseLines moodInput ≠ [] →
      (postAdminMenu db id dinnerInput activityInput moodInput blurbInput).2
          = AdminMenuRes.redirectDateNightPage ⟨FlashType.info, "Itinerary saved 🌼"⟩
      ∧ ∀ d ∈ (postAdminMenu db id dinnerInput activityInput moodInput blurbInput).1.date_nights,
          d.id = id →
          safeParseMenuJson (some d.menu_json)
              = ⟨(parseLines dinnerInput).map Json.str, (parseLines activityInput).map Json.str,
                 (parseLines moodInput).map Json.str⟩
          ∧ d.blurb = orNullTrim blurbInput
          ∧ (safeParseMenuJson (some d.menu_json)).dinner ≠ []
          ∧ (safeParseMenuJson (some d.menu_json)).activity ≠ []
          ∧ (safeParseMenuJson (some d.menu_json)).mood ≠ []) := by
  constructor
  · intro hempty
    have hcond : ((parseLines dinnerInput).length == 0 || (parseLines activityInput).length == 0
        || (parseLines moodInput).length == 0) = true := by
      rcases hempty with h | h | h <;> simp [h]
    unfold postAdminMenu
    rw [hdn]
    simp [hcond]
  · intro h1 h2 h3
    have hcond : ((parseLines dinnerInput).length == 0 || (parseLines activityInput).length == 0
        || (parseLines moodInput).length == 0) = false := by
      simp [List.length_eq_zero, h1, h2, h3]
    unfold postAdminMenu
    rw [hdn]
    simp only [hcond, Bool.false_eq_true, if_false]
    refine ⟨by trivial, ?_⟩
    intro d hd hid
    simp only [List.mem_map] at hd
    obtain ⟨d0, hd0, hfn⟩ := hd
    cases hb : (d0.id == id) with
    | true =>
      rw [hb] at hfn
      simp only [if_true] at hfn
      rw [← hfn]
      refine ⟨safeParse_stringifyMenu _ _ _, rfl, ?_, ?_, ?_⟩ <;>
        rw [safeParse_stringifyMenu] <;> simp [List.map_eq_nil_iff]
      · exact h1
      · exact h2
      · exact h3
    | false =>
      rw [hb] at hfn
      simp only [Bool.false_eq_true, if_false] at hfn
      rw [← hfn] at hid
      rw [hid] at hb
      simp at hb

/-- C7 (witness): a rejected edit (blank activity textarea) leaves the
store unchanged; a full edit saves. -/
theorem c7_menu_edit_rejects_empty_groups_witness :
    findEventById sampleDb "ev1" = some sampleEvent
    ∧ parseLines " \n " = []
    ∧ (postAdminMenu sampleDb "ev1" "Soup" " \n " "Cozy" "b").1 = sampleDb
    ∧ parseLines "Soup" ≠ []
    ∧ (postAdminMenu sampleDb "ev1" "Soup" "Walk" "Cozy" "b").2
        = AdminMenuRes.redirectDateNightPage ⟨FlashType.info, "Itinerary saved 🌼"⟩ := by
  have hrej := (c7_menu_edit_rejects_empty_groups sampleDb "ev1" "Soup" " \n " "Cozy" "b"
    sampleEvent rfl).1 (Or.inr (Or.inl (by decide)))
  have hsucc := (c7_menu_edit_rejects_empty_groups sampleDb "ev1" "Soup" "Walk" "Cozy" "b"
    sampleEvent rfl).2 (by decide) (by decide) (by decide)
  exact ⟨rfl, by decide, hrej.1, by decide, hsucc.1⟩

/-- C8: the resend handler performs no write: the store after any run is
the store before, whatever the dispatch outcome — no new token, no field
of any invite, selection, or event changes — and when it does dispatch,
the attempted email is the original invite notification rendered for the
existing token. -/
theorem c8_resend_is_pure_redispatch (env : Env) (db : Db) (inviteId : String)
    (sendOk : Bool) (errMsg : String) :
    (postAdminResend env db inviteId sendOk errMsg).db = db
    ∧ (∀ (inv : Invite) (re : String) (dn : DateNight) (theme : Theme),
        db.invites.find? (fun i => i.id == inviteId) = some inv →
        inv.recipient_email = some re →
        findEventById db inv.date_night_id = some dn →
        getTheme dn.theme_id = some theme →
        (postAdminResend env db inviteId sendOk errMsg).emails
          = [⟨re, renderInviteEmail dn.title theme.name theme.blurb
                (baseUrl env ++ "/invite/" ++ inv.token)⟩]) := by
  constructor
  · cases hfind : db.invites.find? (fun i => i.id == inviteId) with
    | none => simp [postAdminResend, hfind]
    | some inv =>
      cases hre : inv.recipient_email with
      | none => simp [postAdminResend, hfind, hre]
      | some re =>
        cases hdn : findEventById db inv.date_night_id with
        | none => simp [postAdminResend, hfind, hre, hdn]
        | some dn =>
          cases htheme : getTheme dn.theme_id with
          | none => simp [postAdminResend, hfind, hre, hdn, htheme]
          | some theme => simp [postAdminResend, hfind, hre, hdn, htheme]
  · intro inv re dn theme hfind hre hdn htheme
    simp only [postAdminResend, hfind, hre, hdn, htheme]

/-- C8 (witness): a failing dispatch still leaves the store unchanged and
attempted exactly the original invite email for the existing token. -/
theorem c8_resend_is_pure_redispatch_witness :
    emailedDb.invites.find? (fun i => i.id == "inv5") = some emailedInvite
    ∧ (postAdminResend envP emailedDb "inv5" false "boom").db = emailedDb
    ∧ (postAdminResend envP emailedDb "inv5" false "boom").emails
        = [⟨"partner@example.com",
            renderInviteEmail "Friday" "Cottagecore Classic"
              "Warm bread, soft blankets, candlelight, and gentle joy." "http://h/invite/tok5"⟩] := by
  have h := c8_resend_is_pure_redispatch envP emailedDb "inv5" false "boom"
  refine ⟨by decide, h.1, ?_⟩
  have he := h.2 emailedInvite "partner@example.com" sampleEvent cottagecoreTheme
    (by decide) rfl rfl (by decide)
  rw [he]
  rfl

/-- Behaviour of the group decoder on each possible field value: the
decoded array when the field is an array, the empty list otherwise. -/
theorem matchArr_spec (v : Option Json) :
    (∀ xs, v = some (Json.arr xs) →
      (match v with | some (Json.arr ys) => ys | _ => ([] : List Json)) = xs)
    ∧ (isArrayField v = false →
      (match v with | some (Json.arr ys) => ys | _ => ([] : List Json)) = []) := by
  cases v with
  | none => exact ⟨fun xs h => by simp at h, fun _ => rfl⟩
  | some j =>
    cases j with
    | arr xs =>
      constructor
      · intro ys h
        simp only [Option.some.injEq, Json.arr.injEq] at h
        rw [h]
      · intro h
        simp [isArrayField] at h
    | null => exact ⟨fun xs h => by simp at h, fun _ => rfl⟩
    | bool b => exact ⟨fun xs h => by simp at h, fun _ => rfl⟩
    | num n => exact ⟨fun xs h => by simp at h, fun _ => rfl⟩
    | str s => exact ⟨fun xs h => by simp at h, fun _ => rfl⟩
    | obj fs => exact ⟨fun xs h => by simp at h, fun _ => rfl⟩

/-- C9: menu decoding is total with fallback-to-empty-groups: for every
outcome of `JSON.parse` (including a thrown parse error, a non-object
value, missing fields, or fields that are not arrays) `safeParseMenuJson`
returns a record of three lists, each group being the decoded array when
the field decodes as an array and the empty list otherwise.  (Totality
over every string input is the totality of this Lean function over every
parse outcome.) -/
theorem c9_safeParseMenuJson_total_with_fallback (parsed : Option Json) :
    ((∀ xs, menuField parsed "dinner" = some (Json.arr xs) → (safeParseMenuJson parsed).dinner = xs)
      ∧ (isArrayField (menuField parsed "dinner") = false → (safeParseMenuJson parsed).dinner = []))
    ∧ ((∀ xs, menuField parsed "activity" = some (Json.arr xs) →
          (safeParseMenuJson parsed).activity = xs)
      ∧ (isArrayField (menuField parsed "activity") = false →
          (safeParseMenuJson parsed).activity = []))
    ∧ ((∀ xs, menuField parsed "mood" = some (Json.arr xs) → (safeParseMenuJson parsed).mood = xs)
      ∧ (isArrayField (menuField parsed "mood") = false → (safeParseMenuJson parsed).mood = [])) := by
  cases parsed with
  | none =>
    exact ⟨⟨fun xs h => by simp [menuField] at h, fun _ => rfl⟩,
           ⟨fun xs h => by simp [menuField] at h, fun _ => rfl⟩,
           ⟨fun xs h => by simp [menuField] at h, fun _ => rfl⟩⟩
  | some m =>
    exact ⟨⟨fun xs h => (matchArr_spec (jsonGet m "dinner")).1 xs h,
            fun h => (matchArr_spec (jsonGet m "dinner")).2 h⟩,
           ⟨fun xs h => (matchArr_spec (jsonGet m "activity")).1 xs h,
            fun h => (matchArr_spec (jsonGet m "activity")).2 h⟩,
           ⟨fun xs h => (matchArr_spec (jsonGet m "mood")).1 xs h,
            fun h => (matchArr_spec (jsonGet m "mood")).2 h⟩⟩

/-- C9 (witness): a value whose dinner field is an array, whose activity
field is a number, and whose mood field is missing; and a thrown parse. -/
theorem c9_safeParseMenuJson_total_with_fallback_witness :
    menuField (some (Json.obj [("dinner", Json.arr [Json.str "x"]), ("activity", Json.num 3)]))
        "dinner" = some (Json.arr [Json.str "x"])
    ∧ isArrayField (menuField
        (some (Json.obj [("dinner", Json.arr [Json.str "x"]), ("activity", Json.num 3)]))
        "activity") = false
    ∧ (safeParseMenuJson
        (some (Json.obj [("dinner", Json.arr [Json.str "x"]), ("activity", Json.num 3)]))).dinner
      = [Json.str "x"]
    ∧ (safeParseMenuJson
        (some (Json.obj [("dinner", Json.arr [Json.str "x"]), ("activity", Json.num 3)]))).activity
      = []
    ∧ (safeParseMenuJson
        (some (Json.obj [("dinner", Json.arr [Json.str "x"]), ("activity", Json.num 3)]))).mood
      = []
    ∧ (safeParseMenuJson Option.none).dinner = [] := by
  refine ⟨rfl, rfl, ?_, ?_, ?_, ?_⟩
  · exact (c9_safeParseMenuJson_total_with_fallback
      (some (Json.obj [("dinner", Json.arr [Json.str "x"]), ("activity", Json.num 3)]))).1.1
      [Json.str "x"] rfl
  · exact (c9_safeParseMenuJson_total_with_fallback
      (some (Json.obj [("dinner", Json.arr [Json.str "x"]), ("activity", Json.num 3)]))).2.1.2 rfl
  · exact (c9_safeParseMenuJson_total_with_fallback
      (some (Json.obj [("dinner", Json.arr [Json.str "x"]), ("activity", Json.num 3)]))).2.2.2 rfl
  · exact (c9_safeParseMenuJson_total_with_fallback Option.none).1.2 rfl

/-- C10 (counterexample): the trimming happens on the submission but the
menu side is matched verbatim, so for a menu option X that itself carries
a leading space (X = " Pasta", reachable through the untrimmed menu
override of event creation), submitting X surrounded by whitespace is
rejected, not accepted: the trimmed submission "Pasta" is not verbatim in
the group. -/
theorem c10_counterexample_untrimmed_menu_option :
    "  Pasta " = " " ++ " Pasta" ++ " "
    ∧ Json.str " Pasta"
        ∈ (safeParseMenuJson (some (stringifyMenu [" Pasta"] ["Board games"] ["Romantic"]))).dinner
    ∧ (postInviteToken env0 untrimmedMenuDb "tok3" ⟨"  Pasta ", "Board games", "Romantic", ""⟩
        "sel1" "T1" Fault.noFault true true).res
      = PostInviteRes.redirect (some invalidSelectionFlash)
    ∧ (postInviteToken env0 untrimmedMenuDb "tok3" ⟨"  Pasta ", "Board games", "Romantic", ""⟩
        "sel1" "T1" Fault.noFault true true).db.selections = [] :=
  ⟨by decide,
   show Json.str " Pasta" ∈ [Json.str " Pasta"] from List.mem_cons_self _ _,
   by decide, by decide⟩

/-- C10 (amended): `POST /invite/:token` trims the three submitted choice
fields before the membership check and before storage — so a submission
whose trim equals a menu option X (in particular X surrounded by
whitespace, for any X without leading or trailing whitespace of its own)
is accepted and recorded as X — and an empty or whitespace-only notes
field is stored as NULL. -/
theorem c10_amended_trim_applied_before_validate_and_store
    (env : Env) (db : Db) (token : String) (body : SubmitBody) (selId now : String)
    (ok1 ok2 : Bool) (inv : Invite) (dn : DateNight) (theme : Theme)
    (hinv : findInviteByToken db token = some inv)
    (hpending : inv.used_at = Option.none)
    (hdn : findEventById db inv.date_night_id = some dn)
    (htheme : getTheme dn.theme_id = some theme)
    (hnosel : hasSelectionFor db inv.id = false) :
    (selectionValid (safeParseMenuJson (some dn.menu_json))
        (jsTrim body.dinnerChoice) (jsTrim body.activityChoice) (jsTrim body.moodChoice) = false →
      (postInviteToken env db token body selId now Fault.noFault ok1 ok2).res
        = PostInviteRes.redirect (some invalidSelectionFlash))
    ∧ (selectionValid (safeParseMenuJson (some dn.menu_json))
        (jsTrim body.dinnerChoice) (jsTrim body.activityChoice) (jsTrim body.moodChoice) = true →
      ((postInviteToken env db token body selId now Fault.noFault ok1 ok2).db.selections
          = db.selections ++
            [⟨selId, inv.id, jsTrim body.dinnerChoice, jsTrim body.activityChoice,
              jsTrim body.moodChoice, orNullTrim body.notes, now⟩]
        ∧ (postInviteToken env db token body selId now Fault.noFault ok1 ok2).res
          = PostInviteRes.thanks))
    ∧ (jsTrim body.notes = "" → orNullTrim body.notes = Option.none) := by
  refine ⟨?_, ?_, ?_⟩
  · intro hval
    rw [postInviteToken_invalid env db token body selId now Fault.noFault ok1 ok2 inv dn theme
      hinv hpending hdn htheme hval]
  · intro hval
    rw [postInviteToken_success env db token body selId now ok1 ok2 inv dn theme
      hinv hpending hdn htheme hval hnosel]
    exact ⟨rfl, rfl⟩
  · intro h
    simp [orNullTrim, h]

/-- C10 (witness): padded submissions of trim-clean menu options are
accepted and stored trimmed, and whitespace-only notes are stored NULL. -/
theorem c10_amended_trim_applied_before_validate_and_store_witness :
    jsTrim "  Pasta night  " = "Pasta night"
    ∧ selectionValid (safeParseMenuJson (some sampleMenuJson))
        (jsTrim "  Pasta night  ") (jsTrim " Board games") (jsTrim "Romantic") = true
    ∧ (postInviteToken env0 sampleDb "tok1" ⟨"  Pasta night  ", " Board games", "Romantic", "   "⟩
        "sel1" "T1" Fault.noFault true true).db.selections
      = [⟨"sel1", "inv1", "Pasta night", "Board games", "Romantic", Option.none, "T1"⟩] := by
  have h := c10_amended_trim_applied_before_validate_and_store env0 sampleDb "tok1"
    ⟨"  Pasta night  ", " Board games", "Romantic", "   "⟩ "sel1" "T1" true true
    sampleInvite sampleEvent cottagecoreTheme (by decide) rfl rfl (by decide) rfl
  have h2 := (h.2.1 (by decide)).1
  exact ⟨by decide, by decide, h2.trans (by decide)⟩
